import Mathlib

/-!
Shallow embedding of the benchmark threshold gate engine of the
wesichain repository (tools/bench/evaluate_thresholds.py and
tools/bench/evaluate_agent_thresholds.py), with theorems settling the
frozen claims about it.

Numbers flowing through the gate (metric values, thresholds, sample
times) are modelled as exact rationals; the Python code computes with
IEEE doubles, but every claim under scrutiny is about exact arithmetic
identities and comparisons, which the rational model captures.
-/

deriving instance DecidableEq for Except

namespace EvaluateThresholds

/-- A calendar date, as `datetime.date`: a (year, month, day) triple of a
valid proleptic-Gregorian date. -/
structure Date where
  year : Nat
  month : Nat
  day : Nat
  deriving Repr, DecidableEq

/-- `datetime.date` comparison: lexicographic on (year, month, day). -/
def dateLt (a b : Date) : Bool :=
  a.year < b.year ∨
    (a.year = b.year ∧ (a.month < b.month ∨ (a.month = b.month ∧ a.day < b.day)))

/-- Gregorian leap-year rule, as `calendar`/`datetime` use it. -/
def isLeapYear (y : Nat) : Bool :=
  y % 4 = 0 ∧ (y % 100 ≠ 0 ∨ y % 400 = 0)

/-- Number of days in a month of a given year. -/
def daysInMonth (y m : Nat) : Nat :=
  if m = 2 then (if isLeapYear y then 29 else 28)
  else if m = 4 ∨ m = 6 ∨ m = 9 ∨ m = 11 then 30
  else 31

/-- Numeric value of a decimal digit character. -/
def digitVal (c : Char) : Nat := c.toNat - 48

/-- `datetime.date.fromisoformat` on the canonical `YYYY-MM-DD` form (the
form the code's own error message demands): exactly ten characters, two
hyphen separators, all other positions decimal digits, and the fields a
valid calendar date (year 1..9999, month 1..12, day within the month).
Returns `none` where Python raises `ValueError`. -/
def dateFromIso (s : String) : Option Date :=
  match s.toList with
  | [y1, y2, y3, y4, h1, mo1, mo2, h2, d1, d2] =>
    if h1 = '-' ∧ h2 = '-' ∧ ([y1, y2, y3, y4, mo1, mo2, d1, d2].all Char.isDigit) then
      let y := digitVal y1 * 1000 + digitVal y2 * 100 + digitVal y3 * 10 + digitVal y4
      let mo := digitVal mo1 * 10 + digitVal mo2
      let d := digitVal d1 * 10 + digitVal d2
      if 1 ≤ y ∧ 1 ≤ mo ∧ mo ≤ 12 ∧ 1 ≤ d ∧ d ≤ daysInMonth y mo then
        some ⟨y, mo, d⟩
      else none
    else none
  | _ => none

/-- Zero-pad a number to two decimal digits. -/
def pad2 (n : Nat) : String :=
  if n < 10 then "0" ++ toString n else toString n

/-- Zero-pad a number to four decimal digits. -/
def pad4 (n : Nat) : String :=
  if n < 10 then "000" ++ toString n
  else if n < 100 then "00" ++ toString n
  else if n < 1000 then "0" ++ toString n
  else toString n

/-- `datetime.date.isoformat`: render as `YYYY-MM-DD`. -/
def Date.isoformat (d : Date) : String :=
  pad4 d.year ++ "-" ++ pad2 d.month ++ "-" ++ pad2 d.day

/-- Whitespace characters stripped by Python's `str.strip()` (the ASCII
ones; the waiver grammar is ASCII text). -/
def isPyWs (c : Char) : Bool :=
  c = ' ' ∨ c = '\t' ∨ c = '\n' ∨ c = '\r' ∨ c = '\x0b' ∨ c = '\x0c'

/-- Python `str.strip()`: drop leading and trailing whitespace. -/
def pyStrip (s : String) : String :=
  ⟨((s.toList.dropWhile isPyWs).reverse.dropWhile isPyWs).reverse⟩

/-- `_parse_scalar`: strip surrounding whitespace; an empty result stays
empty; a value of length at least two whose first and last characters are
the same single- or double-quote character loses that surrounding pair;
anything else is returned verbatim (post-strip). -/
def parse_scalar (value : String) : String :=
  let text := pyStrip value
  if text = "" then ""
  else if 2 ≤ text.length ∧ text.front = text.back ∧
      (text.front = '\x22' ∨ text.front = '\x27') then
    (text.drop 1).dropRight 1
  else text

/-- One parsed waiver record: the five required fields of the mapping
produced by `_parse_waivers_yaml` for one list item. A field that is
absent from the document is the empty string here — the validator in
`load_active_waivers` tests `not waiver.get(field)`, which identifies a
missing field with an empty-valued one, so this identification is
faithful to everything the validator observes. Extra fields are parsed
but never read, and are omitted. -/
structure Waiver where
  owner : String
  reason : String
  expiry : String
  issue : String
  metric : String
  deriving Repr, DecidableEq

/-- Field access by name, as `waiver.get(field)` on the record's mapping
(empty string for anything outside the five required fields). -/
def Waiver.get (w : Waiver) (f : String) : String :=
  if f = "owner" then w.owner
  else if f = "reason" then w.reason
  else if f = "expiry" then w.expiry
  else if f = "issue" then w.issue
  else if f = "metric" then w.metric
  else ""

/-- The required waiver field names in the order Python's
`sorted(...)` reports them; filtering this sorted list is the same as
sorting the filtered set. -/
def requiredFieldsSorted : List String := ["expiry", "issue", "metric", "owner", "reason"]

/-- Strict lexicographic order on character lists by code point, the
order Python compares strings in. -/
def strLt : List Char → List Char → Bool
  | [], [] => false
  | [], _ :: _ => true
  | _ :: _, [] => false
  | a :: as, b :: bs =>
    if a.toNat < b.toNat then true
    else if a.toNat = b.toNat then strLt as bs
    else false

/-- Python's `<=` on strings. -/
def pyStrLe (a b : String) : Bool := strLt a.toList b.toList ∨ a = b

/-- Insert a string into an already-sorted list, keeping it sorted. -/
def insertSorted (x : String) : List String → List String
  | [] => [x]
  | y :: ys => if pyStrLe x y then x :: y :: ys else y :: insertSorted x ys

/-- Python's `sorted` on a list of strings (ascending; duplicates kept). -/
def sortStrings (l : List String) : List String :=
  l.foldr insertSorted []

/-- The `missing` list computed for one waiver record: the required
fields whose value is falsy (absent or empty), in sorted order. -/
def waiverMissing (w : Waiver) : List String :=
  requiredFieldsSorted.filter fun f => w.get f = ""

/-- Validation of one waiver record, mirroring one iteration of the loop
in `load_active_waivers` (`idx` is the 1-based position): missing
required fields, unknown metric, unparseable expiry, and expired expiry
each raise; a valid record yields its metric name. -/
def check_waiver (idx : Nat) (allowed : List String) (today : Date) (w : Waiver) :
    Except String String :=
  if waiverMissing w ≠ [] then
    .error ("waiver #" ++ toString idx ++ " missing required fields: " ++
      String.intercalate ", " (waiverMissing w))
  else if w.metric ∉ allowed then
    .error ("waiver #" ++ toString idx ++ " has unknown metric '" ++ w.metric ++
      "', expected one of: " ++ String.intercalate ", " (sortStrings allowed))
  else
    match dateFromIso w.expiry with
    | none =>
      .error ("waiver #" ++ toString idx ++ " has invalid expiry '" ++ w.expiry ++
        "', expected YYYY-MM-DD")
    | some expiry =>
      if dateLt expiry today then
        .error ("waiver #" ++ toString idx ++ " for metric '" ++ w.metric ++
          "' expired on " ++ expiry.isoformat)
      else .ok w.metric

/-- The validation loop of `load_active_waivers`: records are checked in
parse order with 1-based indices, stopping at the first invalid one; each
valid record is bound to its metric in the active mapping, overwriting
any earlier binding (`active[metric] = waiver`). The Python dict is
modelled as an association list consed at the front and looked up
first-match, which realises exactly the dict's overwrite-on-assign
lookup behaviour. -/
def load_waivers_from (allowed : List String) (today : Date) :
    Nat → List Waiver → List (String × Waiver) → Except String (List (String × Waiver))
  | _, [], acc => .ok acc
  | idx, w :: rest, acc =>
    match check_waiver idx allowed today w with
    | .error e => .error e
    | .ok metric => load_waivers_from allowed today (idx + 1) rest ((metric, w) :: acc)

/-- `load_active_waivers`, from the parsed record list onward. The line
grammar `_parse_waivers_yaml` is not modelled here; its output — the
document's records in document order — is this function's input.
`today` makes explicit the `datetime.date.today()` value the Python
function reads from the ambient clock on line 191. -/
def load_active_waivers (ws : List Waiver) (allowed : List String) (today : Date) :
    Except String (List (String × Waiver)) :=
  load_waivers_from allowed today 1 ws []

/-- Insert a rational into an already-sorted list, keeping it sorted. -/
def insertRat (x : ℚ) : List ℚ → List ℚ
  | [] => [x]
  | y :: ys => if x ≤ y then x :: y :: ys else y :: insertRat x ys

/-- Python's `sorted` on a list of numbers (ascending). -/
def pySorted (l : List ℚ) : List ℚ :=
  l.foldr insertRat []

/-- `percentile` (evaluate_thresholds.py): empty input raises; a
single-element input returns its element; otherwise interpolate linearly
between the order statistics bracketing the fractional rank
`(n - 1) * p`. `math.ceil x` is written `-⌊-x⌋` (the same integer), and
Python's `ordered[int(idx)]` / `ordered[lo]` / `ordered[hi]` are read
through `Int.toNat` indexing, which coincides with the source whenever
`0 ≤ p ≤ 1` (there the ranks lie in `[0, n-1]`); the claims under proof
are all within that contract. -/
def percentile (values : List ℚ) (p : ℚ) : Except String ℚ :=
  if values = [] then .error "values cannot be empty"
  else
    let ordered := pySorted values
    if ordered.length = 1 then .ok (ordered.getD 0 0)
    else
      let idx : ℚ := ((ordered.length : ℚ) - 1) * p
      let lo : ℤ := ⌊idx⌋
      let hi : ℤ := -⌊-idx⌋
      if lo = hi then .ok (ordered.getD lo.toNat 0)
      else
        let lo_value := ordered.getD lo.toNat 0
        let hi_value := ordered.getD hi.toNat 0
        .ok (lo_value + (hi_value - lo_value) * (idx - (lo : ℚ)))

/-- The six metric values the absolute-threshold gate consumes, i.e. the
keys `evaluate` reads from its `metrics` dict. -/
structure Metrics where
  query_p50 : ℚ
  query_p95 : ℚ
  query_p99 : ℚ
  index_throughput : ℚ
  peak_memory : ℚ
  error_rate : ℚ
  deriving Repr

/-- The six thresholds of the `[qdrant]` section, i.e. the keys
`evaluate` reads from its `thresholds` dict. -/
structure Thresholds where
  query_p50 : ℚ
  query_p95 : ℚ
  query_p99 : ℚ
  index_throughput : ℚ
  peak_memory : ℚ
  error_rate : ℚ
  deriving Repr

/-- The metric keys, in the order the evaluation loop visits them. -/
def metricNames : List String :=
  ["query_p50", "query_p95", "query_p99", "index_throughput", "peak_memory", "error_rate"]

/-- The `checks` dict of `evaluate`, as a predicate on key names: `≤` for
the latency, memory and error metrics, `≥` for throughput. -/
def checkOf (m : Metrics) (t : Thresholds) (key : String) : Bool :=
  if key = "query_p50" then m.query_p50 ≤ t.query_p50
  else if key = "query_p95" then m.query_p95 ≤ t.query_p95
  else if key = "query_p99" then m.query_p99 ≤ t.query_p99
  else if key = "index_throughput" then t.index_throughput ≤ m.index_throughput
  else if key = "peak_memory" then m.peak_memory ≤ t.peak_memory
  else if key = "error_rate" then m.error_rate ≤ t.error_rate
  else false

/-- Per-metric status as printed by `evaluate`: PASS when the check
holds, otherwise WAIVED when an active waiver exists for the key, else
FAIL. -/
inductive Status where
  | PASS
  | WAIVED
  | FAIL
  deriving Repr, DecidableEq

/-- The status `evaluate` prints for one metric key. -/
def statusOf (m : Metrics) (t : Thresholds) (waivers : List (String × Waiver))
    (key : String) : Status :=
  if checkOf m t key then .PASS
  else if (waivers.lookup key).isSome then .WAIVED
  else .FAIL

/-- The exit code `evaluate` returns: 0 when all checks hold, or when
every check either holds or its key has an active waiver; else 1. -/
def evaluate (m : Metrics) (t : Thresholds) (waivers : List (String × Waiver)) : Nat :=
  if (metricNames.all fun key => checkOf m t key) ∨
      (metricNames.all fun key => checkOf m t key || (waivers.lookup key).isSome) then 0
  else 1

/-- The override branch of `build_metrics` (taken when `--metrics-json`
is supplied): the payload's entries are float-coerced one by one and the
mapping is returned as-is — the function performs no required-key
validation in this flavor, so any payload reaches `evaluate`. -/
def build_metrics_override (payload : List (String × ℚ)) : Except String (List (String × ℚ)) :=
  .ok payload

end EvaluateThresholds

/-- One criterion `sample.json` candidate file: its path, its
modification time, and its `iters` / `times` arrays. A well-typed model
of the JSON payload; the source's `isinstance(…, list)` checks are
absorbed by the typing, while the length mismatch check is kept
explicit. -/
structure SampleFile where
  path : String
  mtime : ℤ
  iters : List ℚ
  times : List ℚ
  deriving Repr, DecidableEq

/-- The per-sample reduction shared by both flavors (the loop bodies of
`load_sample_times_ms` and `_extract_sample_ms`): each pair with a
nonzero (truthy) iteration count contributes
`(total_ns / iter_count) / 1e6` milliseconds; zero-iteration pairs are
skipped. -/
def sample_values_ms (iters times : List ℚ) : List ℚ :=
  (iters.zip times).filterMap fun pr =>
    if pr.1 = 0 then none else some ((pr.2 / pr.1) / 1000000)

namespace EvaluateThresholds

/-- Strict order on candidate files by the `max` key of
`load_sample_times_ms`: the `(st_mtime, str(path))` pair, compared
lexicographically. -/
def sampleKeyLt (a b : SampleFile) : Bool :=
  a.mtime < b.mtime ∨ (a.mtime = b.mtime ∧ strLt a.path.toList b.path.toList)

/-- Python's `max(candidates, key=…)`: scan left to right, replacing the
best candidate only on a strictly greater key (`none` on an empty
list, where Python raises). -/
def pickNewest : List SampleFile → Option SampleFile
  | [] => none
  | c :: cs => some (cs.foldl (fun best cand => if sampleKeyLt best cand then cand else best) c)

/-- `load_sample_times_ms`, from the list of rglob candidates onward: the
single most-recently-modified candidate (path string breaking ties) is
read; mismatched `iters`/`times` lengths and an empty reduction raise. -/
def load_sample_times_ms (candidates : List SampleFile) : Except String (List ℚ) :=
  match pickNewest candidates with
  | none => .error "criterion sample.json not found for wesichain_payload"
  | some f =>
    if f.iters.length ≠ f.times.length then .error ("invalid sample format in " ++ f.path)
    else
      let values_ms := sample_values_ms f.iters f.times
      if values_ms = [] then .error ("no benchmark values found in " ++ f.path)
      else .ok values_ms

end EvaluateThresholds

namespace EvaluateAgentThresholds

/-- `percentile` (evaluate_agent_thresholds.py): identical algorithm to
the storage-engine flavor's, but it sorts first and raises a differently
worded error on empty input. Indexing is modelled exactly as in
`EvaluateThresholds.percentile`. -/
def percentile (values : List ℚ) (p : ℚ) : Except String ℚ :=
  let ordered := EvaluateThresholds.pySorted values
  if ordered = [] then .error "percentile requires at least one value"
  else if ordered.length = 1 then .ok (ordered.getD 0 0)
  else
    let idx : ℚ := ((ordered.length : ℚ) - 1) * p
    let lo : ℤ := ⌊idx⌋
    let hi : ℤ := -⌊-idx⌋
    if lo = hi then .ok (ordered.getD lo.toNat 0)
    else
      let lo_value := ordered.getD lo.toNat 0
      let hi_value := ordered.getD hi.toNat 0
      .ok (lo_value + (hi_value - lo_value) * (idx - (lo : ℚ)))

/-- `regression_pct`: percentage regression of `current` over
`baseline`, with the zero-baseline convention of the source. -/
def regression_pct (current baseline : ℚ) : ℚ :=
  if baseline = 0 then (if current = 0 then 0 else 100)
  else (current - baseline) / baseline * 100

/-- The ten baseline/current metric values the regression gate's
`evaluate` consumes. -/
structure Metrics where
  p50_ms_baseline : ℚ
  p50_ms_current : ℚ
  p95_ms_baseline : ℚ
  p95_ms_current : ℚ
  peak_memory_mb_baseline : ℚ
  peak_memory_mb_current : ℚ
  error_rate_baseline : ℚ
  error_rate_current : ℚ
  crash_rate_baseline : ℚ
  crash_rate_current : ℚ
  deriving Repr

/-- The five `[agent]` policy percentages `evaluate` reads (the section
also carries five `baseline_*` keys, consumed only by the measured-mode
metric builder, not by the evaluator). -/
structure Thresholds where
  p50_regression_review_pct : ℚ
  p95_regression_block_pct : ℚ
  peak_memory_regression_block_pct : ℚ
  error_rate_regression_block_pct : ℚ
  crash_rate_regression_block_pct : ℚ
  deriving Repr

/-- Whether `evaluate` prints the advisory REVIEW line: the p50
regression strictly exceeds its review threshold. -/
def reviewTriggered (m : Metrics) (t : Thresholds) : Bool :=
  t.p50_regression_review_pct < regression_pct m.p50_ms_current m.p50_ms_baseline

/-- The `blockers` list `evaluate` accumulates, in source order: each
blocking metric whose regression strictly exceeds its block threshold
contributes its display name. -/
def blockers (m : Metrics) (t : Thresholds) : List String :=
  (if t.p95_regression_block_pct <
      regression_pct m.p95_ms_current m.p95_ms_baseline then ["p95 latency"] else []) ++
  (if t.peak_memory_regression_block_pct <
      regression_pct m.peak_memory_mb_current m.peak_memory_mb_baseline then ["peak memory"] else []) ++
  (if t.error_rate_regression_block_pct <
      regression_pct m.error_rate_current m.error_rate_baseline then ["error rate"] else []) ++
  (if t.crash_rate_regression_block_pct <
      regression_pct m.crash_rate_current m.crash_rate_baseline then ["crash rate"] else [])

/-- The exit code of the regression flavor's `evaluate`: 1 when any
blocker accumulated, else 0. The REVIEW annotation never feeds into
this. -/
def evaluate (m : Metrics) (t : Thresholds) : Nat :=
  if blockers m t ≠ [] then 1 else 0

/-- The required precomputed-metrics keys of the regression flavor, in
the order Python's `sorted(...)` reports missing ones. -/
def requiredMetricKeysSorted : List String :=
  ["crash_rate_baseline", "crash_rate_current", "error_rate_baseline", "error_rate_current",
   "p50_ms_baseline", "p50_ms_current", "p95_ms_baseline", "p95_ms_current",
   "peak_memory_mb_baseline", "peak_memory_mb_current"]

/-- The override branch of `load_metrics` (taken when `--metrics-json` is
supplied): every required key must be present, else the load fails
listing the missing keys in sorted order; on success the ten required
entries are float-coerced into the metrics mapping. (Python builds the
result by iterating its `required` set in unspecified order; the mapping
is modelled in sorted key order, which is lookup-equivalent.) -/
def load_metrics_override (payload : List (String × ℚ)) : Except String (List (String × ℚ)) :=
  let missing := requiredMetricKeysSorted.filter fun k => (payload.lookup k).isNone
  if missing ≠ [] then
    .error ("metrics JSON missing keys: " ++ String.intercalate ", " missing)
  else .ok (requiredMetricKeysSorted.map fun k => (k, (payload.lookup k).getD 0))

/-- `_extract_sample_ms` applied to each candidate in turn, extending one
shared value list (the loop of `load_criterion_latency_metrics`): the
first file with mismatched `iters`/`times` lengths raises; otherwise all
files' reduced values are concatenated in list order. -/
def extract_all : List SampleFile → Except String (List ℚ)
  | [] => .ok []
  | s :: rest =>
    if s.iters.length ≠ s.times.length then
      .error ("invalid criterion sample format in " ++ s.path)
    else
      match extract_all rest with
      | .error e => .error e
      | .ok vs => .ok (sample_values_ms s.iters s.times ++ vs)

/-- `load_criterion_latency_metrics`, from the list of rglob candidates
onward: unlike the storage-engine flavor, every matching sample file is
read and reduced, and the percentiles are taken over the concatenation
of all of them. -/
def load_criterion_latency_metrics (samples : List SampleFile) : Except String (ℚ × ℚ) :=
  if samples = [] then
    .error "criterion samples for 'agent_runtime_profiles' not found"
  else
    match extract_all samples with
    | .error e => .error e
    | .ok values_ms =>
      if values_ms = [] then .error "no benchmark samples found for agent runtime profiles"
      else
        match percentile values_ms (1 / 2), percentile values_ms (19 / 20) with
        | .ok a, .ok b => .ok (a, b)
        | .error e, _ => .error e
        | .ok _, .error e => .error e

end EvaluateAgentThresholds

namespace EvaluateThresholds

/-- The percentile contract of the specification, written from its words
for comparison with the implementation: sort ascending, fractional rank
`(n - 1) * p` over the input length, `lo = floor`, `hi = ceil`, return
the order statistic when the rank is integral, else interpolate
linearly. -/
def percentileContract (values : List ℚ) (p : ℚ) : ℚ :=
  let ordered := pySorted values
  let idx : ℚ := ((values.length : ℚ) - 1) * p
  let lo : ℤ := ⌊idx⌋
  let hi : ℤ := ⌈idx⌉
  if lo = hi then ordered.getD lo.toNat 0
  else ordered.getD lo.toNat 0 +
    (ordered.getD hi.toNat 0 - ordered.getD lo.toNat 0) * (idx - (lo : ℚ))

theorem pySorted_cons (x : ℚ) (l : List ℚ) : pySorted (x :: l) = insertRat x (pySorted l) := rfl

theorem insertRat_length (x : ℚ) (l : List ℚ) : (insertRat x l).length = l.length + 1 := by
  induction l with
  | nil => rfl
  | cons y ys ih =>
    simp only [insertRat]
    split
    · rfl
    · simp [ih]

theorem pySorted_length (l : List ℚ) : (pySorted l).length = l.length := by
  induction l with
  | nil => rfl
  | cons y ys ih => rw [pySorted_cons, insertRat_length, ih, List.length_cons]

theorem pySorted_ne_nil (l : List ℚ) (h : l ≠ []) : pySorted l ≠ [] := by
  intro hc
  apply h
  have := pySorted_length l
  rw [hc] at this
  exact List.length_eq_zero.mp this.symm

theorem percentile_eq_contract (values : List ℚ) (p : ℚ) (hne : values ≠ []) :
    percentile values p = .ok (percentileContract values p) := by
  unfold percentile percentileContract
  rw [if_neg hne]
  simp only [pySorted_length]
  by_cases h1 : values.length = 1
  · rw [if_pos h1, h1]
    norm_num
  · rw [if_neg h1]
    have hceil : -⌊-(((values.length : ℚ) - 1) * p)⌋ = ⌈((values.length : ℚ) - 1) * p⌉ := by
      rw [Int.floor_neg, neg_neg]
    rw [hceil]
    split <;> rfl

end EvaluateThresholds

/-- C3: the percentile estimator fails on the empty sequence (in both
flavors, with each flavor's own message), returns the sole element of a
single-element sequence for every `p` in `[0, 1]`, agrees with the
sort-and-interpolate contract `percentileContract` on every nonempty
input, agrees across the two flavors on every nonempty input, and in
particular sends `[10, 20, 30, 40]` to `25` at `p = 0.5` and to `38.5`
at `p = 0.95`. -/
theorem percentile_estimator_spec :
    (∀ p : ℚ, EvaluateThresholds.percentile [] p = .error "values cannot be empty") ∧
    (∀ p : ℚ, EvaluateAgentThresholds.percentile [] p =
      .error "percentile requires at least one value") ∧
    (∀ x p : ℚ, 0 ≤ p → p ≤ 1 → EvaluateThresholds.percentile [x] p = .ok x) ∧
    (∀ (values : List ℚ) (p : ℚ), values ≠ [] →
      EvaluateAgentThresholds.percentile values p = EvaluateThresholds.percentile values p) ∧
    (∀ (values : List ℚ) (p : ℚ), values ≠ [] →
      EvaluateThresholds.percentile values p =
        .ok (EvaluateThresholds.percentileContract values p)) ∧
    EvaluateThresholds.percentile [10, 20, 30, 40] (1 / 2) = .ok 25 ∧
    EvaluateThresholds.percentile [10, 20, 30, 40] (19 / 20) = .ok (77 / 2) := by
  refine ⟨fun p => rfl, fun p => rfl, ?_, ?_, EvaluateThresholds.percentile_eq_contract, ?_, ?_⟩
  · intro x p _ _
    norm_num [EvaluateThresholds.percentile, EvaluateThresholds.pySorted,
      EvaluateThresholds.insertRat]
  · intro values p hne
    unfold EvaluateAgentThresholds.percentile EvaluateThresholds.percentile
    rw [if_neg hne, if_neg (EvaluateThresholds.pySorted_ne_nil values hne)]
  · norm_num [EvaluateThresholds.percentile, EvaluateThresholds.pySorted,
      EvaluateThresholds.insertRat, List.getD, Int.toNat] <;> simp_all
  · norm_num [EvaluateThresholds.percentile, EvaluateThresholds.pySorted,
      EvaluateThresholds.insertRat, List.getD, Int.toNat] <;> simp_all

/-- Closed instance of the percentile theorem: the singleton clause
applied at `[7]` with `p = 1/3`. -/
theorem percentile_estimator_spec_witness :
    EvaluateThresholds.percentile [7] (1 / 3) = .ok 7 :=
  percentile_estimator_spec.2.2.1 7 (1 / 3) (by norm_num) (by norm_num)

/-- C6: `regression_pct` is 0 on a zero baseline with zero current, 100
on a zero baseline with nonzero current, the relative change in percent
otherwise, and in particular 20 for current 6 over baseline 5. -/
theorem regression_pct_spec :
    (∀ current baseline : ℚ, baseline = 0 → current = 0 →
      EvaluateAgentThresholds.regression_pct current baseline = 0) ∧
    (∀ current baseline : ℚ, baseline = 0 → current ≠ 0 →
      EvaluateAgentThresholds.regression_pct current baseline = 100) ∧
    (∀ current baseline : ℚ, baseline ≠ 0 →
      EvaluateAgentThresholds.regression_pct current baseline =
        (current - baseline) / baseline * 100) ∧
    EvaluateAgentThresholds.regression_pct 6 5 = 20 := by
  refine ⟨?_, ?_, ?_, by norm_num [EvaluateAgentThresholds.regression_pct]⟩
  · intro current baseline h1 h2
    simp [EvaluateAgentThresholds.regression_pct, h1, h2]
  · intro current baseline h1 h2
    simp [EvaluateAgentThresholds.regression_pct, h1, h2]
  · intro current baseline h1
    simp [EvaluateAgentThresholds.regression_pct, h1]

/-- Closed instance of the regression-percentage theorem: the
zero-baseline, nonzero-current clause applied at current 3. -/
theorem regression_pct_spec_witness :
    EvaluateAgentThresholds.regression_pct 3 0 = 100 :=
  regression_pct_spec.2.1 3 0 rfl (by norm_num)

namespace EvaluateThresholds

theorem statusOf_PASS_iff (m : Metrics) (t : Thresholds) (wv : List (String × Waiver))
    (key : String) : statusOf m t wv key = .PASS ↔ checkOf m t key = true := by
  unfold statusOf
  by_cases h : checkOf m t key
  · simp [h]
  · simp [h]
    split <;> simp

theorem statusOf_WAIVED_iff (m : Metrics) (t : Thresholds) (wv : List (String × Waiver))
    (key : String) : statusOf m t wv key = .WAIVED ↔
      checkOf m t key = false ∧ (wv.lookup key).isSome = true := by
  unfold statusOf
  by_cases h : checkOf m t key <;> by_cases h2 : (wv.lookup key).isSome <;> simp [h, h2]

theorem statusOf_FAIL_iff (m : Metrics) (t : Thresholds) (wv : List (String × Waiver))
    (key : String) : statusOf m t wv key = .FAIL ↔
      checkOf m t key = false ∧ (wv.lookup key).isSome = false := by
  unfold statusOf
  by_cases h : checkOf m t key <;> by_cases h2 : (wv.lookup key).isSome <;> simp [h, h2]

theorem statusOf_pass_or_waived_iff (m : Metrics) (t : Thresholds)
    (wv : List (String × Waiver)) (key : String) :
    (statusOf m t wv key = .PASS ∨ statusOf m t wv key = .WAIVED) ↔
      (checkOf m t key = true ∨ (wv.lookup key).isSome = true) := by
  rw [statusOf_PASS_iff, statusOf_WAIVED_iff]
  by_cases h : checkOf m t key <;> by_cases h2 : (wv.lookup key).isSome <;> simp [h, h2]

theorem evaluate_eq_zero_iff (m : Metrics) (t : Thresholds) (wv : List (String × Waiver)) :
    evaluate m t wv = 0 ↔
      ∀ key ∈ metricNames, checkOf m t key = true ∨ (wv.lookup key).isSome = true := by
  have hcond : ((metricNames.all fun key => checkOf m t key) ∨
      (metricNames.all fun key => checkOf m t key || (wv.lookup key).isSome)) ↔
      (∀ key ∈ metricNames, checkOf m t key = true ∨ (wv.lookup key).isSome = true) := by
    constructor
    · rintro (hA | hB) key hk
      · exact Or.inl (List.all_eq_true.mp hA key hk)
      · simpa using List.all_eq_true.mp hB key hk
    · intro hall
      right
      refine List.all_eq_true.mpr fun key hk => ?_
      simpa using hall key hk
  unfold evaluate
  by_cases h : ((metricNames.all fun key => checkOf m t key) = true ∨
      (metricNames.all fun key => checkOf m t key || (wv.lookup key).isSome) = true)
  · rw [if_pos h]
    simp only [true_iff]
    exact hcond.mp h
  · rw [if_neg h]
    constructor
    · intro hc
      exact absurd hc (by norm_num)
    · intro hc
      exact absurd (hcond.mpr hc) h

theorem evaluate_eq_one_iff (m : Metrics) (t : Thresholds) (wv : List (String × Waiver)) :
    evaluate m t wv = 1 ↔ ¬ evaluate m t wv = 0 := by
  unfold evaluate
  split <;> simp

end EvaluateThresholds

/-- C1: in the absolute-threshold flavor, `evaluate` marks a metric PASS
iff its directional comparison holds (value at most threshold for the
latency, memory and error metrics, value at least threshold for
throughput), marks a failing metric WAIVED iff an active waiver exists
for it and FAIL otherwise, and returns exit code 0 iff every metric is
PASS or WAIVED, else exit code 1. -/
theorem evaluate_thresholds_verdict (m : EvaluateThresholds.Metrics)
    (t : EvaluateThresholds.Thresholds) (wv : List (String × EvaluateThresholds.Waiver)) :
    (EvaluateThresholds.statusOf m t wv "query_p50" = .PASS ↔ m.query_p50 ≤ t.query_p50) ∧
    (EvaluateThresholds.statusOf m t wv "query_p95" = .PASS ↔ m.query_p95 ≤ t.query_p95) ∧
    (EvaluateThresholds.statusOf m t wv "query_p99" = .PASS ↔ m.query_p99 ≤ t.query_p99) ∧
    (EvaluateThresholds.statusOf m t wv "index_throughput" = .PASS ↔
      t.index_throughput ≤ m.index_throughput) ∧
    (EvaluateThresholds.statusOf m t wv "peak_memory" = .PASS ↔ m.peak_memory ≤ t.peak_memory) ∧
    (EvaluateThresholds.statusOf m t wv "error_rate" = .PASS ↔ m.error_rate ≤ t.error_rate) ∧
    (∀ key ∈ EvaluateThresholds.metricNames,
      (EvaluateThresholds.statusOf m t wv key = .WAIVED ↔
        EvaluateThresholds.checkOf m t key = false ∧ (wv.lookup key).isSome = true) ∧
      (EvaluateThresholds.statusOf m t wv key = .FAIL ↔
        EvaluateThresholds.checkOf m t key = false ∧ (wv.lookup key).isSome = false)) ∧
    (EvaluateThresholds.evaluate m t wv = 0 ↔
      ∀ key ∈ EvaluateThresholds.metricNames,
        EvaluateThresholds.statusOf m t wv key = .PASS ∨
          EvaluateThresholds.statusOf m t wv key = .WAIVED) ∧
    (EvaluateThresholds.evaluate m t wv = 1 ↔
      ¬ ∀ key ∈ EvaluateThresholds.metricNames,
        EvaluateThresholds.statusOf m t wv key = .PASS ∨
          EvaluateThresholds.statusOf m t wv key = .WAIVED) := by
  have hz : EvaluateThresholds.evaluate m t wv = 0 ↔
      ∀ key ∈ EvaluateThresholds.metricNames,
        EvaluateThresholds.statusOf m t wv key = .PASS ∨
          EvaluateThresholds.statusOf m t wv key = .WAIVED := by
    rw [EvaluateThresholds.evaluate_eq_zero_iff]
    constructor
    · intro h key hk
      exact (EvaluateThresholds.statusOf_pass_or_waived_iff m t wv key).mpr (h key hk)
    · intro h key hk
      exact (EvaluateThresholds.statusOf_pass_or_waived_iff m t wv key).mp (h key hk)
  refine ⟨?_, ?_, ?_, ?_, ?_, ?_, ?_, hz, ?_⟩
  · rw [EvaluateThresholds.statusOf_PASS_iff]
    simp [EvaluateThresholds.checkOf]
  · rw [EvaluateThresholds.statusOf_PASS_iff]
    simp [EvaluateThresholds.checkOf]
  · rw [EvaluateThresholds.statusOf_PASS_iff]
    simp [EvaluateThresholds.checkOf]
  · rw [EvaluateThresholds.statusOf_PASS_iff]
    simp [EvaluateThresholds.checkOf]
  · rw [EvaluateThresholds.statusOf_PASS_iff]
    simp [EvaluateThresholds.checkOf]
  · rw [EvaluateThresholds.statusOf_PASS_iff]
    simp [EvaluateThresholds.checkOf]
  · intro key _
    exact ⟨EvaluateThresholds.statusOf_WAIVED_iff m t wv key,
      EvaluateThresholds.statusOf_FAIL_iff m t wv key⟩
  · rw [EvaluateThresholds.evaluate_eq_one_iff, hz]

/-- Closed instance of C1's theorem at the spec's worked example: metric
`query_p50` with value 120 and threshold 100 fails its comparison, and
with an active waiver for `query_p50` in the active set its status is
WAIVED. -/
theorem evaluate_thresholds_verdict_witness :
    EvaluateThresholds.statusOf ⟨120, 0, 0, 0, 0, 0⟩ ⟨100, 1, 1, 0, 1, 1⟩
      [("query_p50", ⟨"o", "r", "2099-01-01", "i", "query_p50"⟩)] "query_p50" =
      .WAIVED := by
  have h := evaluate_thresholds_verdict ⟨120, 0, 0, 0, 0, 0⟩ ⟨100, 1, 1, 0, 1, 1⟩
    [("query_p50", ⟨"o", "r", "2099-01-01", "i", "query_p50"⟩)]
  refine ((h.2.2.2.2.2.2.1 "query_p50" (by decide)).1).mpr ⟨?_, by decide⟩
  norm_num [EvaluateThresholds.checkOf]

namespace EvaluateAgentThresholds

theorem evaluate_exit (m : Metrics) (t : Thresholds) :
    (evaluate m t = 1 ↔ blockers m t ≠ []) ∧ (evaluate m t = 0 ↔ blockers m t = []) := by
  unfold evaluate
  by_cases h : blockers m t = [] <;> simp [h]

theorem blockers_members (m : Metrics) (t : Thresholds) :
    ("p95 latency" ∈ blockers m t ↔
      t.p95_regression_block_pct < regression_pct m.p95_ms_current m.p95_ms_baseline) ∧
    ("peak memory" ∈ blockers m t ↔
      t.peak_memory_regression_block_pct <
        regression_pct m.peak_memory_mb_current m.peak_memory_mb_baseline) ∧
    ("error rate" ∈ blockers m t ↔
      t.error_rate_regression_block_pct <
        regression_pct m.error_rate_current m.error_rate_baseline) ∧
    ("crash rate" ∈ blockers m t ↔
      t.crash_rate_regression_block_pct <
        regression_pct m.crash_rate_current m.crash_rate_baseline) ∧
    (∀ s ∈ blockers m t,
      s = "p95 latency" ∨ s = "peak memory" ∨ s = "error rate" ∨ s = "crash rate") := by
  unfold blockers
  by_cases h1 : t.p95_regression_block_pct <
      regression_pct m.p95_ms_current m.p95_ms_baseline <;>
    by_cases h2 : t.peak_memory_regression_block_pct <
      regression_pct m.peak_memory_mb_current m.peak_memory_mb_baseline <;>
    by_cases h3 : t.error_rate_regression_block_pct <
      regression_pct m.error_rate_current m.error_rate_baseline <;>
    by_cases h4 : t.crash_rate_regression_block_pct <
      regression_pct m.crash_rate_current m.crash_rate_baseline <;>
    simp [h1, h2, h3, h4]

end EvaluateAgentThresholds

/-- C2: in the regression-percentage flavor, a p50 regression above its
review threshold only sets the REVIEW annotation and never produces a
nonzero exit; each of the p95-latency, peak-memory, error-rate and
crash-rate regressions above its block threshold independently forces
exit code 1; the blockers list names exactly the offending blocking
metrics; and the exit code is 1 precisely when that list is nonempty,
else 0. -/
theorem evaluate_agent_verdict (m : EvaluateAgentThresholds.Metrics)
    (t : EvaluateAgentThresholds.Thresholds) :
    (EvaluateAgentThresholds.reviewTriggered m t = true ↔
      t.p50_regression_review_pct <
        EvaluateAgentThresholds.regression_pct m.p50_ms_current m.p50_ms_baseline) ∧
    (EvaluateAgentThresholds.reviewTriggered m t = true →
      EvaluateAgentThresholds.blockers m t = [] → EvaluateAgentThresholds.evaluate m t = 0) ∧
    ("p95 latency" ∈ EvaluateAgentThresholds.blockers m t ↔
      t.p95_regression_block_pct <
        EvaluateAgentThresholds.regression_pct m.p95_ms_current m.p95_ms_baseline) ∧
    ("peak memory" ∈ EvaluateAgentThresholds.blockers m t ↔
      t.peak_memory_regression_block_pct <
        EvaluateAgentThresholds.regression_pct m.peak_memory_mb_current
          m.peak_memory_mb_baseline) ∧
    ("error rate" ∈ EvaluateAgentThresholds.blockers m t ↔
      t.error_rate_regression_block_pct <
        EvaluateAgentThresholds.regression_pct m.error_rate_current m.error_rate_baseline) ∧
    ("crash rate" ∈ EvaluateAgentThresholds.blockers m t ↔
      t.crash_rate_regression_block_pct <
        EvaluateAgentThresholds.regression_pct m.crash_rate_current m.crash_rate_baseline) ∧
    (∀ s ∈ EvaluateAgentThresholds.blockers m t,
      s = "p95 latency" ∨ s = "peak memory" ∨ s = "error rate" ∨ s = "crash rate") ∧
    (t.p95_regression_block_pct <
        EvaluateAgentThresholds.regression_pct m.p95_ms_current m.p95_ms_baseline →
      EvaluateAgentThresholds.evaluate m t = 1) ∧
    (t.peak_memory_regression_block_pct <
        EvaluateAgentThresholds.regression_pct m.peak_memory_mb_current
          m.peak_memory_mb_baseline →
      EvaluateAgentThresholds.evaluate m t = 1) ∧
    (t.error_rate_regression_block_pct <
        EvaluateAgentThresholds.regression_pct m.error_rate_current m.error_rate_baseline →
      EvaluateAgentThresholds.evaluate m t = 1) ∧
    (t.crash_rate_regression_block_pct <
        EvaluateAgentThresholds.regression_pct m.crash_rate_current m.crash_rate_baseline →
      EvaluateAgentThresholds.evaluate m t = 1) ∧
    (EvaluateAgentThresholds.evaluate m t = 1 ↔
      EvaluateAgentThresholds.blockers m t ≠ []) ∧
    (EvaluateAgentThresholds.evaluate m t = 0 ↔
      EvaluateAgentThresholds.blockers m t = []) := by
  obtain ⟨hb1, hb2, hb3, hb4, hsub⟩ := EvaluateAgentThresholds.blockers_members m t
  obtain ⟨he1, he0⟩ := EvaluateAgentThresholds.evaluate_exit m t
  have hne : ∀ s, s ∈ EvaluateAgentThresholds.blockers m t →
      EvaluateAgentThresholds.evaluate m t = 1 := by
    intro s hs
    exact he1.mpr (List.ne_nil_of_mem hs)
  refine ⟨by simp [EvaluateAgentThresholds.reviewTriggered], ?_, hb1, hb2, hb3, hb4, hsub,
    ?_, ?_, ?_, ?_, he1, he0⟩
  · intro _ hempty
    exact he0.mpr hempty
  · intro h
    exact hne _ (hb1.mpr h)
  · intro h
    exact hne _ (hb2.mpr h)
  · intro h
    exact hne _ (hb3.mpr h)
  · intro h
    exact hne _ (hb4.mpr h)

/-- Closed instance of C2's theorem at the spec's worked example: a p95
regression of 12% against a block threshold of 10% puts `p95 latency` in
the blockers list and forces exit code 1. -/
theorem evaluate_agent_verdict_witness :
    "p95 latency" ∈ EvaluateAgentThresholds.blockers
      ⟨100, 112, 100, 112, 1, 1, 1, 1, 1, 1⟩ ⟨10, 10, 10, 10, 10⟩ ∧
    EvaluateAgentThresholds.evaluate
      ⟨100, 112, 100, 112, 1, 1, 1, 1, 1, 1⟩ ⟨10, 10, 10, 10, 10⟩ = 1 := by
  have h := evaluate_agent_verdict ⟨100, 112, 100, 112, 1, 1, 1, 1, 1, 1⟩ ⟨10, 10, 10, 10, 10⟩
  have hreg : (10 : ℚ) < EvaluateAgentThresholds.regression_pct 112 100 := by
    norm_num [EvaluateAgentThresholds.regression_pct]
  exact ⟨h.2.2.1.mpr hreg, h.2.2.2.2.2.2.2.1 hreg⟩

namespace EvaluateThresholds

/-- Whether one waiver record passes validation (its position in the
store only affects error messages, so validity is position-independent):
all required fields present, metric allowed, expiry parseable as
`YYYY-MM-DD` and not strictly before today. -/
def waiverOk (allowed : List String) (today : Date) (w : Waiver) : Bool :=
  decide (waiverMissing w = []) && decide (w.metric ∈ allowed) &&
    (match dateFromIso w.expiry with
     | none => false
     | some e => !dateLt e today)

theorem check_waiver_ok_of (idx : Nat) (allowed : List String) (today : Date)
    (w : Waiver) (h : waiverOk allowed today w = true) :
    check_waiver idx allowed today w = .ok w.metric := by
  unfold waiverOk at h
  unfold check_waiver
  cases hdate : dateFromIso w.expiry with
  | none =>
    rw [hdate] at h
    simp at h
  | some e =>
    rw [hdate] at h
    simp only [Bool.and_eq_true, decide_eq_true_eq, Bool.not_eq_true'] at h
    obtain ⟨⟨hmiss, hmem⟩, hexp⟩ := h
    rw [if_neg (by simp [hmiss]), if_neg (by simp [hmem])]
    simp [hexp]

theorem waiverOk_intro (allowed : List String) (today d : Date) (w : Waiver)
    (hmiss : waiverMissing w = []) (hmem : w.metric ∈ allowed)
    (hdate : dateFromIso w.expiry = some d) (hexp : dateLt d today = false) :
    waiverOk allowed today w = true := by
  unfold waiverOk
  rw [hdate]
  simp [hmiss, hmem, hexp]

theorem load_waivers_from_cons_ok (allowed : List String) (today : Date) (idx : Nat)
    (w : Waiver) (rest : List Waiver) (acc : List (String × Waiver))
    (h : check_waiver idx allowed today w = .ok w.metric) :
    load_waivers_from allowed today idx (w :: rest) acc =
      load_waivers_from allowed today (idx + 1) rest ((w.metric, w) :: acc) := by
  simp only [load_waivers_from]
  rw [h]

theorem load_waivers_from_cons_error (allowed : List String) (today : Date) (idx : Nat)
    (w : Waiver) (rest : List Waiver) (acc : List (String × Waiver)) (e : String)
    (h : check_waiver idx allowed today w = .error e) :
    load_waivers_from allowed today idx (w :: rest) acc = .error e := by
  simp only [load_waivers_from]
  rw [h]

theorem load_from_clean (allowed : List String) (today : Date)
    (pre : List Waiver) (rest : List Waiver)
    (hpre : ∀ v ∈ pre, waiverOk allowed today v = true) :
    ∀ (idx : Nat) (acc : List (String × Waiver)),
      load_waivers_from allowed today idx (pre ++ rest) acc =
        load_waivers_from allowed today (idx + pre.length) rest
          ((pre.reverse.map fun v => (v.metric, v)) ++ acc) := by
  induction pre with
  | nil =>
    intro idx acc
    simp
  | cons a pre ih =>
    intro idx acc
    have ha : waiverOk allowed today a = true := hpre a (by simp)
    rw [List.cons_append,
      load_waivers_from_cons_ok allowed today idx a (pre ++ rest) acc
        (check_waiver_ok_of idx allowed today a ha)]
    rw [ih (fun v hv => hpre v (by simp [hv])) (idx + 1) ((a.metric, a) :: acc)]
    simp only [List.reverse_cons, List.map_append, List.map, List.length_cons]
    rw [List.append_assoc]
    simp [Nat.add_comm, Nat.add_assoc, Nat.add_left_comm]

theorem load_active_waivers_clean (ws : List Waiver) (allowed : List String) (today : Date)
    (h : ∀ v ∈ ws, waiverOk allowed today v = true) :
    load_active_waivers ws allowed today = .ok (ws.reverse.map fun v => (v.metric, v)) := by
  have hx := load_from_clean allowed today ws [] h 1 []
  rw [List.append_nil] at hx
  unfold load_active_waivers
  rw [hx]
  simp [load_waivers_from]

theorem lookup_revmap (m : String) (l : List Waiver) :
    ((l.map fun v => (v.metric, v)).lookup m) = l.find? fun v => v.metric == m := by
  induction l with
  | nil => rfl
  | cons a l ih =>
    simp only [List.map, List.lookup, List.find?]
    by_cases h : m = a.metric
    · have h1 : (m == a.metric) = true := by simpa using h
      have h2 : (a.metric == m) = true := by simpa using h.symm
      rw [h1, h2]
    · have h1 : (m == a.metric) = false := by simpa using h
      have h2 : (a.metric == m) = false := by simpa using fun hc => h hc.symm
      rw [h1, h2, ih]

end EvaluateThresholds

/-- C4: a field-complete waiver whose expiry parses as an ISO date
strictly before the (explicitly injected) current date makes
`load_active_waivers` fail with the validation error naming that
waiver's metric and expiry, whatever came after it and regardless of any
metric's own pass/fail status (the evaluator is never consulted); a
waiver whose expiry is on or after the current date is accepted into the
active set. -/
theorem expired_waiver_hard_stop :
    (∀ (pre post : List EvaluateThresholds.Waiver) (w : EvaluateThresholds.Waiver)
        (allowed : List String) (today d : EvaluateThresholds.Date),
      (∀ v ∈ pre, EvaluateThresholds.waiverOk allowed today v = true) →
      (∀ f ∈ EvaluateThresholds.requiredFieldsSorted, w.get f ≠ "") →
      w.metric ∈ allowed →
      EvaluateThresholds.dateFromIso w.expiry = some d →
      EvaluateThresholds.dateLt d today = true →
      EvaluateThresholds.load_active_waivers (pre ++ w :: post) allowed today =
        .error ("waiver #" ++ toString (pre.length + 1) ++ " for metric '" ++ w.metric ++
          "' expired on " ++ d.isoformat)) ∧
    (∀ (pre : List EvaluateThresholds.Waiver) (w : EvaluateThresholds.Waiver)
        (allowed : List String) (today d : EvaluateThresholds.Date),
      (∀ v ∈ pre, EvaluateThresholds.waiverOk allowed today v = true) →
      (∀ f ∈ EvaluateThresholds.requiredFieldsSorted, w.get f ≠ "") →
      w.metric ∈ allowed →
      EvaluateThresholds.dateFromIso w.expiry = some d →
      EvaluateThresholds.dateLt d today = false →
      ∃ acc, EvaluateThresholds.load_active_waivers (pre ++ [w]) allowed today = .ok acc ∧
        acc.lookup w.metric = some w) := by
  constructor
  · intro pre post w allowed today d hpre hcomp hmem hdate hexp
    have hmiss : EvaluateThresholds.waiverMissing w = [] := by
      unfold EvaluateThresholds.waiverMissing
      rw [List.filter_eq_nil_iff]
      intro f hf
      simpa using hcomp f hf
    unfold EvaluateThresholds.load_active_waivers
    rw [EvaluateThresholds.load_from_clean allowed today pre (w :: post) hpre 1 [],
      Nat.add_comm 1 pre.length]
    have hcheck : EvaluateThresholds.check_waiver (pre.length + 1) allowed today w =
        .error ("waiver #" ++ toString (pre.length + 1) ++ " for metric '" ++ w.metric ++
          "' expired on " ++ d.isoformat) := by
      unfold EvaluateThresholds.check_waiver
      rw [if_neg (by simp [hmiss]), if_neg (by simp [hmem]), hdate]
      simp [hexp]
    rw [EvaluateThresholds.load_waivers_from_cons_error allowed today (pre.length + 1) w post
      _ _ hcheck]
  · intro pre w allowed today d hpre hcomp hmem hdate hexp
    have hmiss : EvaluateThresholds.waiverMissing w = [] := by
      unfold EvaluateThresholds.waiverMissing
      rw [List.filter_eq_nil_iff]
      intro f hf
      simpa using hcomp f hf
    have hok := EvaluateThresholds.waiverOk_intro allowed today d w hmiss hmem hdate hexp
    have hall : ∀ v ∈ pre ++ [w], EvaluateThresholds.waiverOk allowed today v = true := by
      intro v hv
      rcases List.mem_append.mp hv with h | h
      · exact hpre v h
      · have : v = w := by simpa using h
        rw [this]
        exact hok
    refine ⟨(pre ++ [w]).reverse.map fun v => (v.metric, v),
      EvaluateThresholds.load_active_waivers_clean _ allowed today hall, ?_⟩
    have hrev : ((pre ++ [w]).reverse.map fun v => (v.metric, v)) =
        (w.metric, w) :: (pre.reverse.map fun v => (v.metric, v)) := by
      simp
    rw [hrev]
    simp [List.lookup]

/-- Closed instance of C4's theorem: a lone field-complete waiver for
`query_p50` with expiry 2019-05-05, checked against an injected current
date of 2026-01-01, aborts loading with the expired-waiver error. -/
theorem expired_waiver_hard_stop_witness :
    EvaluateThresholds.load_active_waivers
      [⟨"o", "r", "2019-05-05", "i", "query_p50"⟩] ["query_p50"] ⟨2026, 1, 1⟩ =
      .error "waiver #1 for metric 'query_p50' expired on 2019-05-05" := by
  have h := expired_waiver_hard_stop.1 [] [] ⟨"o", "r", "2019-05-05", "i", "query_p50"⟩
    ["query_p50"] ⟨2026, 1, 1⟩ ⟨2019, 5, 5⟩ (by simp) (by decide) (by decide) (by decide)
    (by decide)
  rw [List.nil_append] at h
  exact h.trans (by decide)

/-- C7: a waiver store whose records all validate — in particular one
holding two or more unexpired field-complete waivers for the same
metric — loads successfully (duplicates are no conflict error), and the
active mapping binds each metric to the record appearing latest in parse
order. -/
theorem last_wins_waiver_policy :
    ∀ (ws : List EvaluateThresholds.Waiver) (allowed : List String)
      (today : EvaluateThresholds.Date) (m : String) (i j : Nat)
      (hi : i < j) (hj : j < ws.length),
      (∀ v ∈ ws, EvaluateThresholds.waiverOk allowed today v = true) →
      (ws.get ⟨i, lt_trans hi hj⟩).metric = m →
      (ws.get ⟨j, hj⟩).metric = m →
      ∃ acc, EvaluateThresholds.load_active_waivers ws allowed today = .ok acc ∧
        ∃ wl, ws.reverse.find? (fun v => v.metric == m) = some wl ∧
          acc.lookup m = some wl := by
  intro ws allowed today m i j hi hj hall hmi hmj
  refine ⟨ws.reverse.map fun v => (v.metric, v),
    EvaluateThresholds.load_active_waivers_clean ws allowed today hall, ?_⟩
  have hsome : (ws.reverse.find? fun v => v.metric == m).isSome := by
    rw [List.find?_isSome]
    refine ⟨ws.get ⟨j, hj⟩, ?_, by simp only [beq_iff_eq]; exact hmj⟩
    rw [List.mem_reverse]
    exact ws.get_mem _ _
  obtain ⟨wl, hwl⟩ := Option.isSome_iff_exists.mp hsome
  exact ⟨wl, hwl, by rw [EvaluateThresholds.lookup_revmap]; exact hwl⟩

/-- Closed instance of C7's theorem: two unexpired field-complete
waivers for `query_p50`; loading succeeds and the lookup finds the
later record. -/
theorem last_wins_waiver_policy_witness :
    ∃ acc, EvaluateThresholds.load_active_waivers
        [⟨"a", "r", "2030-01-01", "i", "query_p50"⟩,
         ⟨"b", "r2", "2031-02-02", "i2", "query_p50"⟩] ["query_p50"] ⟨2026, 1, 1⟩ =
        .ok acc ∧
      ∃ wl, ([⟨"a", "r", "2030-01-01", "i", "query_p50"⟩,
          (⟨"b", "r2", "2031-02-02", "i2", "query_p50"⟩ :
            EvaluateThresholds.Waiver)].reverse.find? fun v => v.metric == "query_p50") =
          some wl ∧
        acc.lookup "query_p50" = some wl :=
  last_wins_waiver_policy
    [⟨"a", "r", "2030-01-01", "i", "query_p50"⟩, ⟨"b", "r2", "2031-02-02", "i2", "query_p50"⟩]
    ["query_p50"] ⟨2026, 1, 1⟩ "query_p50" 0 1 (by decide) (by decide) (by decide)
    (by decide) (by decide)

/-- C9 evidence: the active-waiver outcome genuinely depends on the
current date `load_active_waivers` consumes — the same single-waiver
store is accepted under a current date of 2026-06-01 and rejected as
expired under 2026-07-01 — so the source's choice to read
`datetime.date.today()` inside the function (rather than take the date
as a parameter) makes its observable behaviour depend on the ambient
clock. -/
theorem load_active_waivers_date_dependence :
    EvaluateThresholds.load_active_waivers
      [⟨"o", "r", "2026-06-30", "i", "query_p50"⟩] ["query_p50"] ⟨2026, 6, 1⟩ =
      .ok [("query_p50", ⟨"o", "r", "2026-06-30", "i", "query_p50"⟩)] ∧
    EvaluateThresholds.load_active_waivers
      [⟨"o", "r", "2026-06-30", "i", "query_p50"⟩] ["query_p50"] ⟨2026, 7, 1⟩ =
      .error "waiver #1 for metric 'query_p50' expired on 2026-06-30" := by
  decide

/-- C10: a required waiver field written as a matching-quoted empty
string is stripped to the empty string by `_parse_scalar` and then
counted missing by validation, which fails naming that field among the
missing ones; and the quote-stripping branch fires only for values at
least two characters long whose first and last characters are the same
single- or double-quote character. -/
theorem quoted_empty_field_missing :
    EvaluateThresholds.parse_scalar "\x22\x22" = "" ∧
    EvaluateThresholds.parse_scalar "''" = "" ∧
    (∀ v : String, 2 ≤ (EvaluateThresholds.pyStrip v).length →
      (EvaluateThresholds.pyStrip v).front = (EvaluateThresholds.pyStrip v).back →
      ((EvaluateThresholds.pyStrip v).front = '\x22' ∨
        (EvaluateThresholds.pyStrip v).front = '\x27') →
      EvaluateThresholds.parse_scalar v =
        ((EvaluateThresholds.pyStrip v).drop 1).dropRight 1) ∧
    (∀ v : String, EvaluateThresholds.pyStrip v ≠ "" →
      ¬(2 ≤ (EvaluateThresholds.pyStrip v).length ∧
        (EvaluateThresholds.pyStrip v).front = (EvaluateThresholds.pyStrip v).back ∧
        ((EvaluateThresholds.pyStrip v).front = '\x22' ∨
          (EvaluateThresholds.pyStrip v).front = '\x27')) →
      EvaluateThresholds.parse_scalar v = EvaluateThresholds.pyStrip v) ∧
    (∀ (w : EvaluateThresholds.Waiver) (allowed : List String)
        (today : EvaluateThresholds.Date),
      w.owner = EvaluateThresholds.parse_scalar "''" →
      "owner" ∈ EvaluateThresholds.waiverMissing w ∧
      EvaluateThresholds.load_active_waivers [w] allowed today =
        .error ("waiver #1 missing required fields: " ++
          String.intercalate ", " (EvaluateThresholds.waiverMissing w))) := by
  refine ⟨by decide, by decide, ?_, ?_, ?_⟩
  · intro v h1 h2 h3
    have hne : EvaluateThresholds.pyStrip v ≠ "" := by
      intro hc
      rw [hc] at h1
      simp at h1
    simp only [EvaluateThresholds.parse_scalar]
    rw [if_neg hne, if_pos ⟨h1, h2, h3⟩]
  · intro v hne hnq
    simp only [EvaluateThresholds.parse_scalar]
    rw [if_neg hne, if_neg hnq]
  · intro w allowed today h
    have h0 : w.owner = "" := h.trans (by decide)
    have hmem : "owner" ∈ EvaluateThresholds.waiverMissing w := by
      unfold EvaluateThresholds.waiverMissing
      rw [List.mem_filter]
      refine ⟨by decide, ?_⟩
      simp [EvaluateThresholds.Waiver.get, h0]
    have hne : EvaluateThresholds.waiverMissing w ≠ [] := by
      intro hc
      rw [hc] at hmem
      simp at hmem
    have hcheck : EvaluateThresholds.check_waiver 1 allowed today w =
        .error ("waiver #1 missing required fields: " ++
          String.intercalate ", " (EvaluateThresholds.waiverMissing w)) := by
      unfold EvaluateThresholds.check_waiver
      rw [if_pos hne]
      rfl
    refine ⟨hmem, ?_⟩
    unfold EvaluateThresholds.load_active_waivers
    rw [EvaluateThresholds.load_waivers_from_cons_error allowed today 1 w [] [] _ hcheck]

/-- Closed instance of C10's theorem: a waiver whose owner field was
written `''` in the document fails validation with owner among the
missing fields. -/
theorem quoted_empty_field_missing_witness :
    "owner" ∈ EvaluateThresholds.waiverMissing ⟨"", "r", "2030-01-01", "i", "query_p50"⟩ ∧
    EvaluateThresholds.load_active_waivers
      [⟨"", "r", "2030-01-01", "i", "query_p50"⟩] ["query_p50"] ⟨2026, 1, 1⟩ =
      .error ("waiver #1 missing required fields: " ++ String.intercalate ", "
        (EvaluateThresholds.waiverMissing ⟨"", "r", "2030-01-01", "i", "query_p50"⟩)) :=
  quoted_empty_field_missing.2.2.2.2 ⟨"", "r", "2030-01-01", "i", "query_p50"⟩
    ["query_p50"] ⟨2026, 1, 1⟩ (by decide)

/-- C5 refutation: in the absolute-threshold flavor, `build_metrics`
performs no key validation on a precomputed-metrics override — a payload
carrying only `query_p50` (five required keys absent) is returned intact
rather than rejected, so it does reach the gate evaluator. -/
theorem override_keys_counterexample :
    EvaluateThresholds.build_metrics_override [("query_p50", (50 : ℚ))] =
      .ok [("query_p50", (50 : ℚ))] ∧
    "query_p95" ∈ EvaluateThresholds.metricNames ∧
    (List.lookup "query_p95" [(("query_p50" : String), (50 : ℚ))]).isNone = true :=
  ⟨rfl, by decide, by decide⟩

/-- C5 (as amended): only the regression-percentage flavor validates a
precomputed-metrics override before evaluation — `load_metrics` fails
listing every missing required key (sorted) and succeeds exactly when
all ten keys are present — while the absolute-threshold flavor's
`build_metrics` returns any override payload unvalidated. -/
theorem override_keys_validation :
    (∀ payload : List (String × ℚ),
      EvaluateThresholds.build_metrics_override payload = .ok payload) ∧
    (∀ payload : List (String × ℚ),
      (∃ k ∈ EvaluateAgentThresholds.requiredMetricKeysSorted,
        (payload.lookup k).isNone = true) →
      EvaluateAgentThresholds.load_metrics_override payload =
        .error ("metrics JSON missing keys: " ++ String.intercalate ", "
          (EvaluateAgentThresholds.requiredMetricKeysSorted.filter
            fun k => (payload.lookup k).isNone))) ∧
    (∀ payload : List (String × ℚ),
      (∀ k ∈ EvaluateAgentThresholds.requiredMetricKeysSorted,
        (payload.lookup k).isSome = true) →
      EvaluateAgentThresholds.load_metrics_override payload =
        .ok (EvaluateAgentThresholds.requiredMetricKeysSorted.map
          fun k => (k, (payload.lookup k).getD 0))) := by
  refine ⟨fun payload => rfl, ?_, ?_⟩
  · intro payload h
    obtain ⟨k, hk, hnone⟩ := h
    have hne : (EvaluateAgentThresholds.requiredMetricKeysSorted.filter
        fun k => (payload.lookup k).isNone) ≠ [] := by
      refine List.ne_nil_of_mem (a := k) ?_
      rw [List.mem_filter]
      exact ⟨hk, hnone⟩
    unfold EvaluateAgentThresholds.load_metrics_override
    rw [if_pos hne]
  · intro payload h
    have hmiss : (EvaluateAgentThresholds.requiredMetricKeysSorted.filter
        fun k => (payload.lookup k).isNone) = [] := by
      rw [List.filter_eq_nil_iff]
      intro k hk
      have hs := h k hk
      cases hl : payload.lookup k with
      | none =>
        rw [hl] at hs
        simp at hs
      | some v => simp [hl]
    unfold EvaluateAgentThresholds.load_metrics_override
    rw [if_neg (by simp [hmiss])]

/-- Closed instance of the amended C5 theorem: an override payload
supplying only `p50_ms_baseline` is rejected by the regression flavor's
loader with the missing-keys error. -/
theorem override_keys_validation_witness :
    EvaluateAgentThresholds.load_metrics_override [("p50_ms_baseline", (1 : ℚ))] =
      .error ("metrics JSON missing keys: " ++ String.intercalate ", "
        (EvaluateAgentThresholds.requiredMetricKeysSorted.filter
          fun k => (List.lookup k [(("p50_ms_baseline" : String), (1 : ℚ))]).isNone)) :=
  override_keys_validation.2.1 [("p50_ms_baseline", (1 : ℚ))]
    ⟨"p50_ms_current", by decide, by decide⟩

namespace EvaluateThresholds

theorem char_eq_of_toNat_eq (a b : Char) (h : a.toNat = b.toNat) : a = b := by
  rw [← Char.ofNat_toNat a, ← Char.ofNat_toNat b, h]

theorem string_eq_of_toList_eq (a b : String) (h : a.toList = b.toList) : a = b := by
  cases a
  cases b
  exact congrArg String.mk h

theorem strLt_irrefl : ∀ a : List Char, strLt a a = false := by
  intro a
  induction a with
  | nil => rfl
  | cons x xs ih => simp [strLt, ih]

theorem strLt_trans :
    ∀ a b c : List Char, strLt a b = true → strLt b c = true → strLt a c = true := by
  intro a
  induction a with
  | nil =>
    intro b c hab hbc
    cases b with
    | nil => simp [strLt] at hab
    | cons y ys =>
      cases c with
      | nil => simp [strLt] at hbc
      | cons z zs => rfl
  | cons x xs ih =>
    intro b c hab hbc
    cases b with
    | nil => simp [strLt] at hab
    | cons y ys =>
      cases c with
      | nil => simp [strLt] at hbc
      | cons z zs =>
        simp only [strLt] at hab hbc ⊢
        by_cases h1 : x.toNat < y.toNat
        · by_cases h2 : y.toNat < z.toNat
          · simp [Nat.lt_trans h1 h2]
          · rw [if_neg h2] at hbc
            by_cases h3 : y.toNat = z.toNat
            · rw [if_pos (h3 ▸ h1)]
            · simp [h3] at hbc
        · rw [if_neg h1] at hab
          by_cases h3 : x.toNat = y.toNat
          · rw [if_pos h3] at hab
            by_cases h2 : y.toNat < z.toNat
            · rw [if_pos (h3 ▸ h2)]
            · rw [if_neg h2] at hbc
              by_cases h4 : y.toNat = z.toNat
              · rw [if_pos h4] at hbc
                have hxz : x.toNat = z.toNat := h3.trans h4
                rw [if_neg (by omega), if_pos hxz]
                exact ih ys zs hab hbc
              · simp [h4] at hbc
          · simp [h3] at hab

theorem strLt_conn :
    ∀ a b : List Char, strLt a b = false → strLt b a = false → a = b := by
  intro a
  induction a with
  | nil =>
    intro b h1 _
    cases b with
    | nil => rfl
    | cons y ys => simp [strLt] at h1
  | cons x xs ih =>
    intro b h1 h2
    cases b with
    | nil => simp [strLt] at h2
    | cons y ys =>
      simp only [strLt] at h1 h2
      by_cases hxy : x.toNat < y.toNat
      · simp [hxy] at h1
      · by_cases hyx : y.toNat < x.toNat
        · simp [hyx] at h2
        · have hx : x.toNat = y.toNat := Nat.le_antisymm (Nat.not_lt.mp hyx) (Nat.not_lt.mp hxy)
          rw [if_neg hxy, if_pos hx] at h1
          rw [if_neg hyx, if_pos hx.symm] at h2
          rw [char_eq_of_toNat_eq x y hx, ih ys h1 h2]

theorem sampleKeyLt_irrefl (a : SampleFile) : sampleKeyLt a a = false := by
  simp [sampleKeyLt, strLt_irrefl]

theorem sampleKeyLt_trans (a b c : SampleFile) (h1 : sampleKeyLt a b = true)
    (h2 : sampleKeyLt b c = true) : sampleKeyLt a c = true := by
  simp only [sampleKeyLt, decide_eq_true_eq] at h1 h2 ⊢
  rcases h1 with h1 | ⟨e1, s1⟩ <;> rcases h2 with h2 | ⟨e2, s2⟩
  · exact Or.inl (lt_trans h1 h2)
  · exact Or.inl (e2 ▸ h1)
  · exact Or.inl (e1 ▸ h2)
  · exact Or.inr ⟨e1.trans e2, strLt_trans _ _ _ s1 s2⟩

theorem sampleKey_tri (a b : SampleFile) :
    sampleKeyLt a b = true ∨ sampleKeyLt b a = true ∨
      (b.mtime = a.mtime ∧ b.path = a.path) := by
  simp only [sampleKeyLt, decide_eq_true_eq]
  rcases lt_trichotomy a.mtime b.mtime with h | h | h
  · exact Or.inl (Or.inl h)
  · cases hs : strLt a.path.toList b.path.toList
    · cases hs2 : strLt b.path.toList a.path.toList
      · refine Or.inr (Or.inr ⟨h.symm, ?_⟩)
        exact string_eq_of_toList_eq _ _ (strLt_conn _ _ hs2 hs)
      · exact Or.inr (Or.inl (Or.inr ⟨h.symm, rfl⟩))
    · exact Or.inl (Or.inr ⟨h, rfl⟩)
  · exact Or.inr (Or.inl (Or.inl h))

theorem sampleKeyLt_congr_right (x a b : SampleFile) (hm : a.mtime = b.mtime)
    (hp : a.path = b.path) : sampleKeyLt x a = sampleKeyLt x b := by
  simp [sampleKeyLt, hm, hp]

theorem pickBest_spec :
    ∀ (cs : List SampleFile) (c : SampleFile),
      (cs.foldl (fun best cand => if sampleKeyLt best cand then cand else best) c) ∈ c :: cs ∧
      ∀ x ∈ c :: cs,
        sampleKeyLt
          (cs.foldl (fun best cand => if sampleKeyLt best cand then cand else best) c) x =
          false := by
  intro cs
  induction cs with
  | nil =>
    intro c
    refine ⟨by simp, ?_⟩
    intro x hx
    have hxc : x = c := by simpa using hx
    rw [hxc]
    exact sampleKeyLt_irrefl c
  | cons d ds ih =>
    intro c
    by_cases h : sampleKeyLt c d
    · simp only [List.foldl, if_pos h]
      obtain ⟨hmem, hmax⟩ := ih d
      refine ⟨List.mem_cons_of_mem c hmem, ?_⟩
      intro x hx
      rcases List.mem_cons.mp hx with rfl | hx'
      · cases hq : sampleKeyLt (ds.foldl
          (fun best cand => if sampleKeyLt best cand then cand else best) d) x
        · rfl
        · have hbd := sampleKeyLt_trans _ _ _ hq h
          rw [hmax d (by simp)] at hbd
          exact absurd hbd (by simp)
      · exact hmax x hx'
    · simp only [List.foldl, if_neg h]
      obtain ⟨hmem, hmax⟩ := ih c
      constructor
      · rcases List.mem_cons.mp hmem with h1 | h1
        · rw [h1]
          simp
        · simp [h1]
      · intro x hx
        rcases List.mem_cons.mp hx with rfl | hx'
        · exact hmax x (by simp)
        · rcases List.mem_cons.mp hx' with rfl | hx''
          · cases hq : sampleKeyLt (ds.foldl
              (fun best cand => if sampleKeyLt best cand then cand else best) c) x
            · rfl
            · rcases sampleKey_tri c x with h1 | h1 | h1
              · exact absurd h1 h
              · have hbc := sampleKeyLt_trans _ _ _ hq h1
                rw [hmax c (by simp)] at hbc
                exact absurd hbc (by simp)
              · have hc := sampleKeyLt_congr_right
                  (ds.foldl (fun best cand => if sampleKeyLt best cand then cand else best) c)
                  x c h1.1 h1.2
                rw [hq, hmax c (by simp)] at hc
                exact absurd hc (by simp)
          · exact hmax x (by simp [hx''])

theorem pickNewest_spec (c : SampleFile) (cs : List SampleFile) :
    ∃ w, pickNewest (c :: cs) = some w ∧ w ∈ c :: cs ∧
      ∀ x ∈ c :: cs, sampleKeyLt w x = false := by
  obtain ⟨hmem, hmax⟩ := pickBest_spec cs c
  exact ⟨_, rfl, hmem, hmax⟩

end EvaluateThresholds

/-- C8 refutation: the regression flavor does not read only the winning
sample file. With two candidates where `b` (mtime 5) beats `a` (mtime 0),
`load_criterion_latency_metrics` returns percentiles over both files'
samples — (2, 2.9) — while the winning file alone yields (3, 3). -/
theorem sample_file_selection_counterexample :
    EvaluateThresholds.pickNewest [⟨"a", 0, [1], [1000000]⟩, ⟨"b", 5, [1], [3000000]⟩] =
      some ⟨"b", 5, [1], [3000000]⟩ ∧
    EvaluateAgentThresholds.load_criterion_latency_metrics
      [⟨"a", 0, [1], [1000000]⟩, ⟨"b", 5, [1], [3000000]⟩] = .ok (2, 29 / 10) ∧
    EvaluateAgentThresholds.load_criterion_latency_metrics [⟨"b", 5, [1], [3000000]⟩] =
      .ok (3, 3) ∧
    ((2 : ℚ), (29 : ℚ) / 10) ≠ ((3 : ℚ), (3 : ℚ)) := by
  have e1 : sample_values_ms [1] [1000000] = [(1 : ℚ)] := by
    norm_num [sample_values_ms, List.filterMap]
  have e2 : sample_values_ms [1] [3000000] = [(3 : ℚ)] := by
    norm_num [sample_values_ms, List.filterMap]
  have e3 : EvaluateAgentThresholds.extract_all
      [⟨"a", 0, [1], [1000000]⟩, ⟨"b", 5, [1], [3000000]⟩] = .ok [1, 3] := by
    simp [EvaluateAgentThresholds.extract_all, e1, e2]
  have e3b : EvaluateAgentThresholds.extract_all [⟨"b", 5, [1], [3000000]⟩] = .ok [3] := by
    simp [EvaluateAgentThresholds.extract_all, e2]
  have e4 : EvaluateAgentThresholds.percentile [1, 3] (1 / 2) = .ok 2 := by
    norm_num [EvaluateAgentThresholds.percentile, EvaluateThresholds.pySorted,
      EvaluateThresholds.insertRat, List.getD, Int.toNat] <;> simp_all
  have e4i : EvaluateAgentThresholds.percentile [1, 3] (2⁻¹ : ℚ) = .ok 2 := by
    rw [show ((2⁻¹ : ℚ)) = 1 / 2 by norm_num]
    exact e4
  have e5 : EvaluateAgentThresholds.percentile [1, 3] (19 / 20) = .ok (29 / 10) := by
    norm_num [EvaluateAgentThresholds.percentile, EvaluateThresholds.pySorted,
      EvaluateThresholds.insertRat, List.getD, Int.toNat] <;> simp_all
  have e6 : ∀ p : ℚ, EvaluateAgentThresholds.percentile [3] p = .ok 3 := by
    intro p
    norm_num [EvaluateAgentThresholds.percentile, EvaluateThresholds.pySorted,
      EvaluateThresholds.insertRat, List.getD]
  refine ⟨?_, ?_, ?_, by norm_num⟩
  · norm_num [EvaluateThresholds.pickNewest, EvaluateThresholds.sampleKeyLt]
  · simp [EvaluateAgentThresholds.load_criterion_latency_metrics, e3, e4i, e5]
  · simp [EvaluateAgentThresholds.load_criterion_latency_metrics, e3b, e6]

/-- C8 (as amended): the absolute-threshold flavor reduces exactly one
candidate — the `(mtime, path)`-maximal file: no candidate compares
strictly greater than the winner, every candidate with a different path
compares strictly smaller (most-recently-modified wins, path string
breaking ties), and reducing the full candidate list equals reducing
the winner alone; the regression flavor instead reads every matching
file, concatenating all files' reduced samples in list order. -/
theorem sample_file_selection :
    (∀ (c : SampleFile) (cs : List SampleFile),
      ∃ w, EvaluateThresholds.pickNewest (c :: cs) = some w ∧ w ∈ c :: cs ∧
        (∀ x ∈ c :: cs, EvaluateThresholds.sampleKeyLt w x = false) ∧
        (∀ x ∈ c :: cs, x.path ≠ w.path → EvaluateThresholds.sampleKeyLt x w = true) ∧
        EvaluateThresholds.load_sample_times_ms (c :: cs) =
          EvaluateThresholds.load_sample_times_ms [w]) ∧
    (∀ samples : List SampleFile,
      (∀ s ∈ samples, s.iters.length = s.times.length) →
      EvaluateAgentThresholds.extract_all samples =
        .ok (samples.foldr (fun s acc => sample_values_ms s.iters s.times ++ acc) [])) := by
  constructor
  · intro c cs
    obtain ⟨w, hw, hmem, hmax⟩ := EvaluateThresholds.pickNewest_spec c cs
    refine ⟨w, hw, hmem, hmax, ?_, ?_⟩
    · intro x hx hpath
      rcases EvaluateThresholds.sampleKey_tri w x with h1 | h1 | h1
      · rw [hmax x hx] at h1
        exact absurd h1 (by simp)
      · exact h1
      · exact absurd h1.2 hpath
    · unfold EvaluateThresholds.load_sample_times_ms
      rw [hw, show EvaluateThresholds.pickNewest [w] = some w from rfl]
  · intro samples
    induction samples with
    | nil =>
      intro _
      rfl
    | cons s ss ih =>
      intro h
      have hs := h s (by simp)
      simp only [EvaluateAgentThresholds.extract_all]
      rw [if_neg (by simp [hs])]
      rw [ih fun x hx => h x (by simp [hx])]
      simp

/-- Closed instance of the amended C8 theorem: the regression flavor's
extraction over a singleton candidate list concatenates that file's
reduced samples. -/
theorem sample_file_selection_witness :
    EvaluateAgentThresholds.extract_all [⟨"a", 0, [1], [1000000]⟩] =
      .ok ([(⟨"a", 0, [1], [1000000]⟩ : SampleFile)].foldr
        (fun s acc => sample_values_ms s.iters s.times ++ acc) []) :=
  sample_file_selection.2 [⟨"a", 0, [1], [1000000]⟩] (by
    intro s hs
    have : s = ⟨"a", 0, [1], [1000000]⟩ := by simpa using hs
    rw [this]
    rfl)
